import Mathlib

/-!
Shallow embedding of the Session Ledger Engine of the `stint` time tracker
(`src/lib/timer.ts`, `src/lib/db.ts`, `src/lib/format.ts`), together with
theorems checking the natural-language specification against it.

Modelling conventions:
* The SQLite store is a `Store`: the `timers` and `timer_sessions` tables as
  lists in row-insertion (rowid) order.  `SELECT ... LIMIT 1` without an
  `ORDER BY` scans in rowid order, i.e. `List.find?`.
* Unix timestamps are `Nat` (the schema stores integer epoch seconds).
* `nanoid()` ids and the wall clock (`Date.now()`, SQL `unixepoch()`) are
  passed in as explicit parameters (`freshTimerId`, `freshSessionId`, `now`).
* TypeScript functions that `throw` mid-way return the store as it stands at
  the throw site: a mutating call yields `Store × Except TimerError α`, the
  first component being the store left behind whether or not the call threw.
* JavaScript truthiness tests on optional numbers (`if (startAt)`,
  `stopAt && ...`) are modelled by `truthy`, which is false for `none`
  (absent / SQL NULL) and for `some 0`.
-/

namespace Stint

/-- Row of the `timers` table (`id` primary key, `name` unique, `color`,
`created_at`). -/
structure Timer where
  id : String
  name : String
  color : String
  createdAt : Nat
deriving Repr, DecidableEq

/-- Row of the `timer_sessions` table; `end?` models the nullable `end`
column (`none` = still running). -/
structure TimerSession where
  id : String
  timerId : String
  start : Nat
  end? : Option Nat
  createdAt : Nat
deriving Repr, DecidableEq

/-- The persistent store: both tables, rows in insertion order. -/
structure Store where
  timers : List Timer
  sessions : List TimerSession
deriving Repr, DecidableEq

/-- Error kinds thrown by the engine (spec section 7 names for the concrete
`throw new Error(...)` sites of `timer.ts`). -/
inductive TimerError where
  | alreadyRunning (timerName : String)
  | chronologyViolation (latestEnd : Nat)
  | notFound (timerName : String)
  | notRunning (timerName : String)
  | invalidStopTime (start : Nat)
  | invalidRange
deriving Repr, DecidableEq

/-- JavaScript truthiness of an optional number: `undefined`/`null` and `0`
are falsy, every other number is truthy. -/
def truthy : Option Nat → Bool
  | none => false
  | some n => n != 0

/-- Embedding of `queries.getTimerByName`:
`SELECT * FROM timers WHERE name = ?` (first row in rowid order). -/
def getTimerByName (st : Store) (name : String) : Option Timer :=
  st.timers.find? (fun t => t.name == name)

/-- Embedding of `queries.getTimerById`:
`SELECT * FROM timers WHERE id = ?`. -/
def getTimerById (st : Store) (id : String) : Option Timer :=
  st.timers.find? (fun t => t.id == id)

/-- Embedding of `queries.getActiveSession`:
`SELECT * FROM timer_sessions WHERE timer_id = ? AND end IS NULL LIMIT 1`. -/
def getActiveSession (st : Store) (timerId : String) : Option TimerSession :=
  st.sessions.find? (fun s => s.timerId == timerId && s.end?.isNone)

/-- Embedding of `getLatestEndTimestamp`:
`SELECT MAX(end) FROM timer_sessions WHERE end IS NOT NULL`, with SQL `MAX`
of an empty selection being NULL (`none`). -/
def getLatestEndTimestamp (st : Store) : Option Nat :=
  (st.sessions.filterMap (fun s => s.end?)).max?

/-- Embedding of `createTimer`: inserts a timer row.  The source draws `id`
from `nanoid()` and `created_at` from the SQL default `unixepoch()`; both are
parameters here. -/
def createTimer (st : Store) (id name color : String) (now : Nat) :
    Store × Timer :=
  let t : Timer := { id := id, name := name, color := color, createdAt := now }
  ({ st with timers := st.timers ++ [t] }, t)

/-- Tail of `startTimer` after the timer has been resolved or auto-created:
the already-running check, the chronology validation (guarded by the JS
truthiness of `startAt` and of `latestEnd`), and the session insert. -/
def startTimerGo (st1 : Store) (timerName : String) (timer : Timer)
    (created : Bool) (startAt : Option Nat) (now : Nat)
    (freshSessionId : String) :
    Store × Except TimerError (TimerSession × Bool) :=
  match getActiveSession st1 timer.id with
  | some _ => (st1, Except.error (TimerError.alreadyRunning timerName))
  | none =>
    let startTimestamp := startAt.getD now
    let sess : TimerSession :=
      { id := freshSessionId, timerId := timer.id, start := startTimestamp,
        end? := none, createdAt := now }
    let committed : Store × Except TimerError (TimerSession × Bool) :=
      ({ st1 with sessions := st1.sessions ++ [sess] },
        Except.ok (sess, created))
    if truthy startAt then
      match getLatestEndTimestamp st1 with
      | some latestEnd =>
        if latestEnd ≠ 0 ∧ startTimestamp < latestEnd then
          (st1, Except.error (TimerError.chronologyViolation latestEnd))
        else committed
      | none => committed
    else committed

/-- Embedding of `startTimer(timerName, startAt?)`: auto-creates the timer
when the name is unknown (default color `#f5f5f4`), then runs
`startTimerGo`. -/
def startTimer (st : Store) (timerName : String) (startAt : Option Nat)
    (now : Nat) (freshTimerId freshSessionId : String) :
    Store × Except TimerError (TimerSession × Bool) :=
  match getTimerByName st timerName with
  | some timer => startTimerGo st timerName timer false startAt now freshSessionId
  | none =>
    let p := createTimer st freshTimerId timerName "#f5f5f4" now
    startTimerGo p.1 timerName p.2 true startAt now freshSessionId

/-- Embedding of `stopTimer(timerName, stopAt?)`.  The `UPDATE ... WHERE
id = ?` is a map over the rows keyed by the primary key; the source re-reads
the updated row by that key, which is the closed active session. -/
def stopTimer (st : Store) (timerName : String) (stopAt : Option Nat)
    (now : Nat) : Store × Except TimerError TimerSession :=
  match getTimerByName st timerName with
  | none => (st, Except.error (TimerError.notFound timerName))
  | some timer =>
    match getActiveSession st timer.id with
    | none => (st, Except.error (TimerError.notRunning timerName))
    | some activeSession =>
      let stopTimestamp := stopAt.getD now
      if truthy stopAt ∧ stopTimestamp ≤ activeSession.start then
        (st, Except.error (TimerError.invalidStopTime activeSession.start))
      else
        ({ st with sessions := st.sessions.map (fun s =>
            if s.id == activeSession.id
            then { s with end? := some stopTimestamp } else s) },
          Except.ok { activeSession with end? := some stopTimestamp })

/-- Embedding of `createSession(timerName, start, end)` (manual entry): the
range check `start >= end` comes first, then get-or-create of the timer, then
the insert of a fully closed session. -/
def createSession (st : Store) (timerName : String) (start endTs : Nat)
    (now : Nat) (freshTimerId freshSessionId : String) :
    Store × Except TimerError TimerSession :=
  if start ≥ endTs then
    (st, Except.error TimerError.invalidRange)
  else
    let acc : Store × Timer :=
      match getTimerByName st timerName with
      | some t => (st, t)
      | none => createTimer st freshTimerId timerName "#f5f5f4" now
    let sess : TimerSession :=
      { id := freshSessionId, timerId := acc.2.id, start := start,
        end? := some endTs, createdAt := now }
    ({ acc.1 with sessions := acc.1.sessions ++ [sess] }, Except.ok sess)

/-- Embedding of `getSessionDuration` (`format.ts`): an active session uses
the current time as its end; the difference is over the integers. -/
def getSessionDuration (now : Nat) (session : TimerSession) : Int :=
  ((session.end?.getD now : Nat) : Int) - (session.start : Int)

/-- Row order produced by `ORDER BY start DESC`: later rows have
smaller-or-equal `start`. -/
def startGe (a b : TimerSession) : Prop := b.start ≤ a.start

instance : DecidableRel startGe := fun a b => Nat.decLe b.start a.start

instance : IsTotal TimerSession startGe := ⟨fun a b => le_total b.start a.start⟩

instance : IsTrans TimerSession startGe := ⟨fun _ _ _ h1 h2 => le_trans h2 h1⟩

/-- Embedding of `ORDER BY start DESC`: some sorted permutation of the
selected rows, here realised by insertion sort. -/
def sortByStartDesc (l : List TimerSession) : List TimerSession :=
  l.insertionSort startGe

/-- The row filter of the `getAllSessionsByTimer` query:
`(start >= ?1 AND start <= ?2) OR (start < ?3 AND end IS NULL)` bound with
parameters `(startTime, endTime, endTime)` — the third placeholder receives
`endTime`, not `startTime`. -/
def inRangeOrActive (startTime endTime : Nat) (s : TimerSession) : Bool :=
  decide ((startTime ≤ s.start ∧ s.start ≤ endTime) ∨
    (s.start < endTime ∧ s.end? = none))

/-- One iteration of the grouping loop of `getAllSessionsByTimer`:
`sessionsByTimer.set(timer, [...existing, session])`.  The JS `Map` keyed by
the per-`timerId` cached `Timer` object is an association list in key
insertion order; a new key is appended at the end. -/
def addToGroup (groups : List (Timer × List TimerSession)) (t : Timer)
    (s : TimerSession) : List (Timer × List TimerSession) :=
  match groups with
  | [] => [(t, [s])]
  | g :: gs =>
    if g.1.id == t.id then (g.1, g.2 ++ [s]) :: gs
    else g :: addToGroup gs t s

/-- The grouping loop of `getAllSessionsByTimer`: resolve each session's
timer (`queries.getTimerById`; the source memoises the lookup per `timerId`,
which returns the same row as looking up each time) and append the session to
that timer's group; sessions whose timer row is missing are dropped. -/
def groupLoop (st : Store) :
    List TimerSession → List (Timer × List TimerSession) →
    List (Timer × List TimerSession)
  | [], groups => groups
  | s :: rest, groups =>
    match getTimerById st s.timerId with
    | some t => groupLoop st rest (addToGroup groups t s)
    | none => groupLoop st rest groups

/-- Embedding of `getAllSessionsByTimer(startTime, endTime)`: select the rows
satisfying `inRangeOrActive`, order them by `start DESC`, and group them by
timer. -/
def getAllSessionsByTimer (st : Store) (startTime endTime : Nat) :
    List (Timer × List TimerSession) :=
  groupLoop st
    (sortByStartDesc (st.sessions.filter (inRangeOrActive startTime endTime)))
    []

/-- Membership of a session somewhere in a grouped query result. -/
def groupMem (groups : List (Timer × List TimerSession))
    (x : TimerSession) : Prop :=
  ∃ p ∈ groups, x ∈ p.2

/-- The timer id a `startTimer`/`createSession` call ends up using for the
inserted session: the id of the timer row found by name, or the fresh id of
the auto-created timer. -/
def resolvedTimerId (st : Store) (timerName freshTimerId : String) : String :=
  match getTimerByName st timerName with
  | some t => t.id
  | none => freshTimerId

/-- Store states reachable from the empty store by engine mutations.  The
`nanoid()` ids of inserted rows are collision-free (the schema makes `id` a
primary key), hence the freshness side conditions on the id parameters. -/
inductive Reachable : Store → Prop where
  | init : Reachable { timers := [], sessions := [] }
  | startStep (st : Store) (n : String) (startAt : Option Nat) (now : Nat)
      (ftid fsid : String) :
      (∀ t ∈ st.timers, t.id ≠ ftid) → (∀ s ∈ st.sessions, s.id ≠ fsid) →
      Reachable st → Reachable (startTimer st n startAt now ftid fsid).1
  | stopStep (st : Store) (n : String) (stopAt : Option Nat) (now : Nat) :
      Reachable st → Reachable (stopTimer st n stopAt now).1
  | createStep (st : Store) (n : String) (a b now : Nat) (ftid fsid : String) :
      (∀ t ∈ st.timers, t.id ≠ ftid) → (∀ s ∈ st.sessions, s.id ≠ fsid) →
      Reachable st → Reachable (createSession st n a b now ftid fsid).1

/-- Store states reachable by engine mutations whose stop requests are
well-behaved: an explicit stop timestamp is nonzero (so the JS-truthiness
guard does not skip the I4 validation), and a default-clock stop happens
strictly after the open session's start (the wall clock has passed it). -/
inductive ReachableV : Store → Prop where
  | init : ReachableV { timers := [], sessions := [] }
  | startStep (st : Store) (n : String) (startAt : Option Nat) (now : Nat)
      (ftid fsid : String) :
      (∀ t ∈ st.timers, t.id ≠ ftid) → (∀ s ∈ st.sessions, s.id ≠ fsid) →
      ReachableV st → ReachableV (startTimer st n startAt now ftid fsid).1
  | stopAtStep (st : Store) (n : String) (ts : Nat) (now : Nat) :
      ts ≠ 0 →
      ReachableV st → ReachableV (stopTimer st n (some ts) now).1
  | stopNowStep (st : Store) (n : String) (now : Nat) :
      (∀ t act, getTimerByName st n = some t →
        getActiveSession st t.id = some act → act.start < now) →
      ReachableV st → ReachableV (stopTimer st n none now).1
  | createStep (st : Store) (n : String) (a b now : Nat) (ftid fsid : String) :
      (∀ t ∈ st.timers, t.id ≠ ftid) → (∀ s ∈ st.sessions, s.id ≠ fsid) →
      ReachableV st → ReachableV (createSession st n a b now ftid fsid).1

instance {ε α : Type} [DecidableEq ε] [DecidableEq α] :
    DecidableEq (Except ε α)
  | Except.ok x, Except.ok y =>
    if h : x = y then Decidable.isTrue (congrArg Except.ok h)
    else Decidable.isFalse (fun hh => h (Except.ok.inj hh))
  | Except.error x, Except.error y =>
    if h : x = y then Decidable.isTrue (congrArg Except.error h)
    else Decidable.isFalse (fun hh => h (Except.error.inj hh))
  | Except.ok _, Except.error _ =>
    Decidable.isFalse (fun hh => Except.noConfusion hh)
  | Except.error _, Except.ok _ =>
    Decidable.isFalse (fun hh => Except.noConfusion hh)

/-! Concrete stores and rows used by counterexamples and witnesses. -/

/-- A store with one timer `"work"` and one completed session `[1, 5]`. -/
def stOneDone : Store :=
  { timers := [{ id := "T1", name := "work", color := "#f5f5f4", createdAt := 0 }],
    sessions := [{ id := "S1", timerId := "T1", start := 1, end? := some 5,
                   createdAt := 0 }] }

/-- A store with timer `"t"` currently running since `start = 5`. -/
def stRunning : Store :=
  { timers := [{ id := "T1", name := "t", color := "#f5f5f4", createdAt := 0 }],
    sessions := [{ id := "S1", timerId := "T1", start := 5, end? := none,
                   createdAt := 0 }] }

/-- A store where `"work"` is running (started at 55) and `"other"` has a
completed session ending at 50. -/
def stBusy : Store :=
  { timers := [{ id := "T1", name := "work", color := "#f5f5f4", createdAt := 0 },
               { id := "T2", name := "other", color := "#f5f5f4", createdAt := 0 }],
    sessions := [{ id := "S1", timerId := "T2", start := 1, end? := some 50,
                   createdAt := 0 },
                 { id := "S2", timerId := "T1", start := 55, end? := none,
                   createdAt := 0 }] }

/-- The trace behind the C2 counterexample: start `"work"` retroactively at
100 (wall clock 50), then stop it with the default clock at 60. -/
def stFutureStop : Store :=
  (stopTimer (startTimer { timers := [], sessions := [] }
    "work" (some 100) 50 "T1" "S1").1 "work" none 60).1

/-- The trace behind the C2 witness: start `"work"` at 5, stop it at 9. -/
def stGoodStop : Store :=
  (stopTimer (startTimer { timers := [], sessions := [] }
    "work" (some 5) 5 "T1" "S1").1 "work" (some 9) 9).1

/-- The closed session stored in `stGoodStop`. -/
def sessGood : TimerSession :=
  { id := "S1", timerId := "T1", start := 5, end? := some 9, createdAt := 5 }

/-- A one-step reachable store: `"work"` started at wall clock 10. -/
def stOneStart : Store :=
  (startTimer { timers := [], sessions := [] } "work" none 10 "T1" "S1").1

/-- A store with two completed sessions of the same timer, for the grouping
witnesses. -/
def stTwoDone : Store :=
  { timers := [{ id := "T1", name := "w", color := "#f5f5f4", createdAt := 0 }],
    sessions := [{ id := "S1", timerId := "T1", start := 3, end? := some 4,
                   createdAt := 0 },
                 { id := "S2", timerId := "T1", start := 6, end? := some 7,
                   createdAt := 0 }] }

/-- The group produced by `getAllSessionsByTimer stTwoDone 0 10`. -/
def groupTwoDone : Timer × List TimerSession :=
  ({ id := "T1", name := "w", color := "#f5f5f4", createdAt := 0 },
   [{ id := "S2", timerId := "T1", start := 6, end? := some 7, createdAt := 0 },
    { id := "S1", timerId := "T1", start := 3, end? := some 4, createdAt := 0 }])

/-- A closed and an open session for the duration witnesses. -/
def sessClosed : TimerSession :=
  { id := "S1", timerId := "T1", start := 3, end? := some 10, createdAt := 0 }

/-- An open session for the duration witnesses. -/
def sessOpen : TimerSession :=
  { id := "S2", timerId := "T1", start := 3, end? := none, createdAt := 0 }

/-- The result of stopping `stRunning` at 9: its session closed. -/
def stRunningStopped : Store :=
  { timers := [{ id := "T1", name := "t", color := "#f5f5f4", createdAt := 0 }],
    sessions := [{ id := "S1", timerId := "T1", start := 5, end? := some 9,
                   createdAt := 0 }] }

/-- The session returned by stopping `stRunning` at 9. -/
def sessStopped : TimerSession :=
  { id := "S1", timerId := "T1", start := 5, end? := some 9, createdAt := 0 }

/-- The session stored by `stFutureStop`: closed with `end < start`. -/
def sessLate : TimerSession :=
  { id := "S1", timerId := "T1", start := 100, end? := some 60, createdAt := 50 }

/-- The open session of `stRunning`. -/
def sessRunning : TimerSession :=
  { id := "S1", timerId := "T1", start := 5, end? := none, createdAt := 0 }

/-- The session produced by stopping `stRunning` with explicit timestamp 0. -/
def sessZeroStopped : TimerSession :=
  { id := "S1", timerId := "T1", start := 5, end? := some 0, createdAt := 0 }

/-- The store produced by stopping `stRunning` with explicit timestamp 0. -/
def stZeroStopped : Store :=
  { timers := [{ id := "T1", name := "t", color := "#f5f5f4", createdAt := 0 }],
    sessions := [sessZeroStopped] }

/-! ## Theorems -/

/-- C8: session duration is `(end ?? now) − start`: a closed session's
duration is independent of the evaluation instant and equals `end − start`
exactly; an open session's duration is non-decreasing in the wall clock. -/
theorem session_duration_spec :
    (∀ (s : TimerSession) (e : Nat), s.end? = some e →
      ∀ t1 t2 : Nat, getSessionDuration t1 s = (e : Int) - (s.start : Int) ∧
        getSessionDuration t1 s = getSessionDuration t2 s) ∧
    (∀ s : TimerSession, s.end? = none →
      ∀ t1 t2 : Nat, t1 ≤ t2 →
        getSessionDuration t1 s ≤ getSessionDuration t2 s) := by
  constructor
  · intro s e he t1 t2
    simp [getSessionDuration, he]
  · intro s he t1 t2 h
    simp only [getSessionDuration, he, Option.getD_none]
    omega

/-- Witness for `session_duration_spec` at a concrete closed and a concrete
open session. -/
theorem session_duration_spec_witness :
    getSessionDuration 100 sessClosed = (10 : Int) - (3 : Int) ∧
    getSessionDuration 4 sessOpen ≤ getSessionDuration 9 sessOpen :=
  ⟨(session_duration_spec.1 sessClosed 10 rfl 100 200).1,
   session_duration_spec.2 sessOpen rfl 4 9 (by decide)⟩

/-- C5: `createSession` fails with `InvalidRange` exactly when `end ≤ start`;
for every `end > start` it succeeds and appends the closed session,
unconditionally in the rest of the store — in particular no forward-chronology
check is applied on the manual-entry path. -/
theorem createSession_invalid_range_spec :
    ∀ (st : Store) (n : String) (a b now : Nat) (ftid fsid : String),
      (b ≤ a → createSession st n a b now ftid fsid =
        (st, Except.error TimerError.invalidRange)) ∧
      (a < b →
        (createSession st n a b now ftid fsid).2 =
          Except.ok { id := fsid, timerId := resolvedTimerId st n ftid,
                      start := a, end? := some b, createdAt := now } ∧
        (createSession st n a b now ftid fsid).1.sessions =
          st.sessions ++ [{ id := fsid, timerId := resolvedTimerId st n ftid,
                            start := a, end? := some b, createdAt := now }]) := by
  intro st n a b now ftid fsid
  constructor
  · intro h
    simp only [createSession, if_pos (show a ≥ b from h)]
  · intro h
    have hnot : ¬ a ≥ b := by omega
    simp only [createSession, if_neg hnot]
    cases hn : getTimerByName st n with
    | some t => simp [resolvedTimerId, hn]
    | none => simp [resolvedTimerId, hn, createTimer]

/-- Witness for `createSession_invalid_range_spec`: an inverted range fails,
a proper range succeeds. -/
theorem createSession_invalid_range_spec_witness :
    (createSession { timers := [], sessions := [] } "w" 7 3 0 "T1" "S1" =
      ({ timers := [], sessions := [] }, Except.error TimerError.invalidRange)) ∧
    (createSession { timers := [], sessions := [] } "w" 3 7 0 "T1" "S1").2 =
      Except.ok { id := "S1", timerId := "T1", start := 3, end? := some 7,
                  createdAt := 0 } := by
  refine ⟨(createSession_invalid_range_spec _ "w" 7 3 0 "T1" "S1").1 (by decide), ?_⟩
  have h := ((createSession_invalid_range_spec { timers := [], sessions := [] }
    "w" 3 7 0 "T1" "S1").2 (by decide)).1
  simpa [resolvedTimerId, getTimerByName] using h

/-- C6 (code-bug exhibit): stopping the running timer `"t"` (open session
start 5) with the explicit timestamp 0 — which is ≤ the session's start —
does not fail with the invalid-stop-time error: the truthiness guard
`stopAt && ...` treats the explicit 0 as absent and skips the validation,
while the nullish default `stopAt ?? now` still uses 0, so the session is
closed with `end = 0`. -/
theorem stopTimer_zero_bug :
    stopTimer stRunning "t" (some 0) 9 =
      (stZeroStopped, Except.ok sessZeroStopped) ∧
    sessZeroStopped.end? = some 0 ∧ (0 : Nat) ≤ sessRunning.start := by
  decide

/-- C1 counterexample: `startTimer` on the unknown name `"music"` with a
chronology-violating explicit start reports an error yet leaves the
auto-created timer row behind — the store is not what it was before the
call. -/
theorem startTimer_error_leaves_autocreated_timer :
    (startTimer stOneDone "music" (some 3) 3 "T2" "S2").2 =
      Except.error (TimerError.chronologyViolation 5) ∧
    (startTimer stOneDone "music" (some 3) 3 "T2" "S2").1 ≠ stOneDone ∧
    ({ id := "T2", name := "music", color := "#f5f5f4", createdAt := 3 } : Timer) ∈
      (startTimer stOneDone "music" (some 3) 3 "T2" "S2").1.timers := by
  decide

/-- On every error path of `startTimerGo` the store is left as it was when
`startTimerGo` was entered. -/
theorem startTimerGo_error_state (st1 : Store) (n : String) (t : Timer)
    (c : Bool) (sAt : Option Nat) (now : Nat) (fsid : String) (e : TimerError)
    (h : (startTimerGo st1 n t c sAt now fsid).2 = Except.error e) :
    (startTimerGo st1 n t c sAt now fsid).1 = st1 := by
  simp only [startTimerGo] at h ⊢
  cases ha : getActiveSession st1 t.id <;> simp only [ha] at h ⊢
  by_cases htr : truthy sAt <;> simp only [htr] at h ⊢
  · cases hle : getLatestEndTimestamp st1 <;> simp only [hle] at h ⊢
    · simp at h
    · rename_i le
      by_cases hc : le ≠ 0 ∧ sAt.getD now < le
      · simp [hc]
      · simp [hc] at h
  · simp at h

/-- C1 amended: on error no session is ever inserted and no existing record
is modified; `stopTimer` and `createSession` leave the store exactly
unchanged on every error, while a failing `startTimer` may additionally
leave behind the timer it auto-created for an unknown name. -/
theorem engine_error_session_frame :
    (∀ (st : Store) (n : String) (sAt : Option Nat) (now : Nat)
       (ftid fsid : String) (e : TimerError),
       (startTimer st n sAt now ftid fsid).2 = Except.error e →
       (startTimer st n sAt now ftid fsid).1.sessions = st.sessions ∧
       ((startTimer st n sAt now ftid fsid).1.timers = st.timers ∨
         (getTimerByName st n = none ∧
          (startTimer st n sAt now ftid fsid).1.timers = st.timers ++
            [{ id := ftid, name := n, color := "#f5f5f4", createdAt := now }]))) ∧
    (∀ (st : Store) (n : String) (sAt : Option Nat) (now : Nat) (e : TimerError),
       (stopTimer st n sAt now).2 = Except.error e →
       (stopTimer st n sAt now).1 = st) ∧
    (∀ (st : Store) (n : String) (a b now : Nat) (ftid fsid : String)
       (e : TimerError),
       (createSession st n a b now ftid fsid).2 = Except.error e →
       (createSession st n a b now ftid fsid).1 = st) := by
  refine ⟨?_, ?_, ?_⟩
  · intro st n sAt now ftid fsid e h
    cases hn : getTimerByName st n with
    | some t =>
      simp only [startTimer, hn] at h ⊢
      have h1 := startTimerGo_error_state st n t false sAt now fsid e h
      rw [h1]
      exact ⟨rfl, Or.inl rfl⟩
    | none =>
      simp only [startTimer, hn] at h ⊢
      have h1 := startTimerGo_error_state (createTimer st ftid n "#f5f5f4" now).1
        n (createTimer st ftid n "#f5f5f4" now).2 true sAt now fsid e h
      rw [h1]
      exact ⟨rfl, Or.inr ⟨by trivial, rfl⟩⟩
  · intro st n sAt now e h
    cases hn : getTimerByName st n with
    | none => simp only [stopTimer, hn]
    | some t =>
      cases ha : getActiveSession st t.id with
      | none => simp only [stopTimer, hn, ha]
      | some act =>
        simp only [stopTimer, hn, ha] at h ⊢
        by_cases hc : truthy sAt ∧ sAt.getD now ≤ act.start
        · simp [hc]
        · simp [hc] at h
  · intro st n a b now ftid fsid e h
    by_cases hr : a ≥ b
    · simp only [createSession, if_pos hr]
    · exfalso
      simp [createSession, if_neg hr] at h

/-- Witness for `engine_error_session_frame`: a failing retroactive start on
an unknown name leaves the session table untouched, and a stop of an unknown
timer leaves the whole store untouched. -/
theorem engine_error_session_frame_witness :
    (startTimer stOneDone "music" (some 3) 3 "T2" "S2").1.sessions =
      stOneDone.sessions ∧
    (stopTimer stOneDone "nope" none 9).1 = stOneDone := by
  constructor
  · exact (engine_error_session_frame.1 stOneDone "music" (some 3) 3 "T2" "S2"
      (TimerError.chronologyViolation 5) (by decide)).1
  · exact engine_error_session_frame.2.1 stOneDone "nope" none 9
      (TimerError.notFound "nope") (by decide)

/-- C3 counterexample: with the global latest completed end at 50, an
explicit start at 20 targeting the running timer `"work"` fails with
`AlreadyRunning`, not with the chronology-violation error; and an explicit
start at 0, though strictly below the latest completed end 5, passes the
check (the truthiness guard `if (startAt)` treats 0 as absent) and the call
succeeds. -/
theorem chronology_check_counterexample :
    (getLatestEndTimestamp stBusy = some 50 ∧
      (startTimer stBusy "work" (some 20) 20 "T9" "S9").2 =
        Except.error (TimerError.alreadyRunning "work")) ∧
    (getLatestEndTimestamp stOneDone = some 5 ∧
      (startTimer stOneDone "work" (some 0) 0 "T9" "S9").2 =
        Except.ok ({ id := "S9", timerId := "T1", start := 0, end? := none,
                     createdAt := 0 }, false)) := by
  decide

/-- Behaviour of the chronology validation inside `startTimerGo` when the
resolved timer has no open session. -/
theorem startTimerGo_chronology (st1 : Store) (n : String) (t : Timer)
    (c : Bool) (s now : Nat) (fsid : String)
    (hact : getActiveSession st1 t.id = none) :
    (∀ e : Nat, getLatestEndTimestamp st1 = some e → s ≠ 0 → s < e →
      (startTimerGo st1 n t c (some s) now fsid).2 =
        Except.error (TimerError.chronologyViolation e)) ∧
    (∀ e : Nat, getLatestEndTimestamp st1 = some e → e ≤ s →
      (startTimerGo st1 n t c (some s) now fsid).2 =
        Except.ok ({ id := fsid, timerId := t.id, start := s, end? := none,
                     createdAt := now }, c)) ∧
    (getLatestEndTimestamp st1 = none →
      (startTimerGo st1 n t c (some s) now fsid).2 =
        Except.ok ({ id := fsid, timerId := t.id, start := s, end? := none,
                     createdAt := now }, c)) := by
  refine ⟨?_, ?_, ?_⟩
  · intro e hle hs0 hlt
    have htr : truthy (some s) = true := by simp [truthy, hs0]
    have hc : e ≠ 0 ∧ s < e := by omega
    simp [startTimerGo, hact, htr, hle, hc]
  · intro e hle hes
    by_cases hs : s = 0
    · subst hs
      simp [startTimerGo, hact, truthy]
    · have htr : truthy (some s) = true := by simp [truthy, hs]
      have hc : ¬ (e ≠ 0 ∧ s < e) := by omega
      simp [startTimerGo, hact, htr, hle, hc]
  · intro hle
    by_cases hs : s = 0
    · subst hs
      simp [startTimerGo, hact, truthy]
    · have htr : truthy (some s) = true := by simp [truthy, hs]
      simp [startTimerGo, hact, htr, hle]

/-- C3 amended: provided the targeted timer (existing, or the one that gets
auto-created) has no open session, an explicit nonzero start timestamp
strictly below the latest completed end fails with the chronology-violation
error; an explicit start at or above that latest end, or with no completed
session in the store, passes the check and the call succeeds.  (A running
timer instead fails with the already-running error, and an explicit start of
0 bypasses the check.) -/
theorem chronology_check_spec :
    ∀ (st : Store) (n : String) (s now : Nat) (ftid fsid : String),
      getActiveSession st (resolvedTimerId st n ftid) = none →
      ((∀ e : Nat, getLatestEndTimestamp st = some e → s ≠ 0 → s < e →
        (startTimer st n (some s) now ftid fsid).2 =
          Except.error (TimerError.chronologyViolation e)) ∧
       (∀ e : Nat, getLatestEndTimestamp st = some e → e ≤ s →
        (startTimer st n (some s) now ftid fsid).2 =
          Except.ok ({ id := fsid, timerId := resolvedTimerId st n ftid,
                       start := s, end? := none, createdAt := now },
                     (getTimerByName st n).isNone)) ∧
       (getLatestEndTimestamp st = none →
        (startTimer st n (some s) now ftid fsid).2 =
          Except.ok ({ id := fsid, timerId := resolvedTimerId st n ftid,
                       start := s, end? := none, createdAt := now },
                     (getTimerByName st n).isNone))) := by
  intro st n s now ftid fsid hact
  cases hn : getTimerByName st n with
  | some t =>
    have hrid : resolvedTimerId st n ftid = t.id := by
      simp [resolvedTimerId, hn]
    rw [hrid] at hact ⊢
    have h := startTimerGo_chronology st n t false s now fsid hact
    simp only [startTimer, hn, Option.isNone_some]
    exact h
  | none =>
    have hrid : resolvedTimerId st n ftid = ftid := by
      simp [resolvedTimerId, hn]
    rw [hrid] at hact ⊢
    have h := startTimerGo_chronology (createTimer st ftid n "#f5f5f4" now).1 n
      (createTimer st ftid n "#f5f5f4" now).2 true s now fsid hact
    simp only [startTimer, hn, Option.isNone_none]
    exact h

/-- Witness for `chronology_check_spec` on the concrete store `stOneDone`:
an explicit start at 3 (below the completed end 5) fails, an explicit start
at 7 succeeds. -/
theorem chronology_check_spec_witness :
    (startTimer stOneDone "work" (some 3) 3 "T9" "S9").2 =
      Except.error (TimerError.chronologyViolation 5) ∧
    (startTimer stOneDone "work" (some 7) 7 "T9" "S9").2 =
      Except.ok ({ id := "S9", timerId := "T1", start := 7, end? := none,
                   createdAt := 7 }, false) := by
  constructor
  · exact (chronology_check_spec stOneDone "work" 3 3 "T9" "S9" (by decide)).1
      5 (by decide) (by decide) (by decide)
  · exact (chronology_check_spec stOneDone "work" 7 7 "T9" "S9" (by decide)).2.1
      5 (by decide) (by decide)

/-- The store left behind by `startTimerGo`: unchanged, or — only when the
timer had no open session — extended by the one new open session. -/
theorem startTimerGo_state (st1 : Store) (n : String) (t : Timer) (c : Bool)
    (sAt : Option Nat) (now : Nat) (fsid : String) :
    (startTimerGo st1 n t c sAt now fsid).1 = st1 ∨
    (getActiveSession st1 t.id = none ∧
      (startTimerGo st1 n t c sAt now fsid).1 =
        { st1 with sessions := st1.sessions ++
          [{ id := fsid, timerId := t.id, start := sAt.getD now, end? := none,
             createdAt := now }] }) := by
  cases ha : getActiveSession st1 t.id
  · simp only [startTimerGo, ha]
    by_cases htr : truthy sAt <;> simp only [htr]
    · cases hle : getLatestEndTimestamp st1 <;> simp only [hle]
      · right
        exact ⟨by simp [ha], by simp⟩
      · rename_i le
        by_cases hc : le ≠ 0 ∧ sAt.getD now < le
        · left
          simp [hc]
        · right
          exact ⟨by simp [ha], by simp [hc]⟩
    · right
      exact ⟨by simp [ha], by simp⟩
  · left
    simp [startTimerGo, ha]

/-- Appending an open session for a timer that has no open session keeps
every timer's open-session count at most one. -/
theorem countP_active_append_open (l : List TimerSession) (sess : TimerSession)
    (hopen : sess.end? = none)
    (hact : l.find? (fun s => s.timerId == sess.timerId && s.end?.isNone) = none)
    (tid : String)
    (h : l.countP (fun s => s.timerId == tid && s.end?.isNone) ≤ 1) :
    (l ++ [sess]).countP (fun s => s.timerId == tid && s.end?.isNone) ≤ 1 := by
  rw [List.countP_append]
  by_cases hid : sess.timerId = tid
  · subst hid
    have h0 : l.countP (fun s => s.timerId == sess.timerId && s.end?.isNone) = 0 := by
      rw [List.countP_eq_zero]
      intro a ha
      exact List.find?_eq_none.mp hact a ha
    rw [h0]
    have h1 : List.countP
        (fun s => s.timerId == sess.timerId && s.end?.isNone) [sess] ≤ 1 := by
      simp [List.countP_cons, hopen]
    omega
  · have h1 : List.countP (fun s => s.timerId == tid && s.end?.isNone) [sess] = 0 := by
      simp [List.countP_cons, hopen, hid]
    omega

/-- Appending a closed session keeps every timer's open-session count at
most one. -/
theorem countP_active_append_closed (l : List TimerSession)
    (sess : TimerSession) (hclosed : sess.end?.isSome = true) (tid : String)
    (h : l.countP (fun s => s.timerId == tid && s.end?.isNone) ≤ 1) :
    (l ++ [sess]).countP (fun s => s.timerId == tid && s.end?.isNone) ≤ 1 := by
  rw [List.countP_append]
  have h1 : List.countP (fun s => s.timerId == tid && s.end?.isNone) [sess] = 0 := by
    cases he : sess.end? with
    | none => rw [he] at hclosed; simp at hclosed
    | some e => simp [List.countP_cons, he]
  omega

/-- The closing map of `stopTimer` never increases any timer's open-session
count. -/
theorem countP_active_stopMap (l : List TimerSession) (aid : String)
    (ts : Nat) (tid : String) :
    (l.map (fun s => if s.id == aid then { s with end? := some ts } else s)).countP
        (fun s => s.timerId == tid && s.end?.isNone) ≤
      l.countP (fun s => s.timerId == tid && s.end?.isNone) := by
  rw [List.countP_map]
  apply List.countP_mono_left
  intro s _ hp
  by_cases hid : (s.id == aid) = true <;> simp only [Function.comp, hid] at hp
  · simp [hid] at hp
  · simpa [hid] using hp

/-- C4: invariant I1 — in every store reachable by engine mutations, each
timer has at most one open session — and a `startTimer` call on a timer that
already has an open session always fails with the already-running error and
changes nothing. -/
theorem mutual_exclusion_I1 :
    (∀ st : Store, Reachable st → ∀ tid : String,
      st.sessions.countP (fun s => s.timerId == tid && s.end?.isNone) ≤ 1) ∧
    (∀ (st : Store) (n : String) (t : Timer) (sAt : Option Nat) (now : Nat)
       (ftid fsid : String),
      getTimerByName st n = some t → (getActiveSession st t.id).isSome →
      startTimer st n sAt now ftid fsid =
        (st, Except.error (TimerError.alreadyRunning n))) := by
  constructor
  · intro st h
    induction h with
    | init => intro tid; simp
    | startStep st n sAt now ftid fsid hftid hfsid hr ih =>
      intro tid
      cases hn : getTimerByName st n with
      | some t =>
        simp only [startTimer, hn]
        rcases startTimerGo_state st n t false sAt now fsid with heq | ⟨hact, heq⟩
        · rw [heq]; exact ih tid
        · rw [heq]
          exact countP_active_append_open st.sessions
            { id := fsid, timerId := t.id, start := sAt.getD now, end? := none,
              createdAt := now } rfl hact tid (ih tid)
      | none =>
        simp only [startTimer, hn]
        rcases startTimerGo_state (createTimer st ftid n "#f5f5f4" now).1 n
            (createTimer st ftid n "#f5f5f4" now).2 true sAt now fsid with
          heq | ⟨hact, heq⟩
        · rw [heq]; exact ih tid
        · rw [heq]
          exact countP_active_append_open st.sessions
            { id := fsid, timerId := (createTimer st ftid n "#f5f5f4" now).2.id,
              start := sAt.getD now, end? := none, createdAt := now }
            rfl hact tid (ih tid)
    | stopStep st n sAt now hr ih =>
      intro tid
      cases hn : getTimerByName st n with
      | none => simp only [stopTimer, hn]; exact ih tid
      | some t =>
        cases ha : getActiveSession st t.id with
        | none => simp only [stopTimer, hn, ha]; exact ih tid
        | some act =>
          simp only [stopTimer, hn, ha]
          by_cases hcond : truthy sAt ∧ sAt.getD now ≤ act.start
          · simp only [if_pos hcond]; exact ih tid
          · simp only [if_neg hcond]
            exact le_trans (countP_active_stopMap st.sessions act.id _ tid) (ih tid)
    | createStep st n a b now ftid fsid hftid hfsid hr ih =>
      intro tid
      by_cases hab : a ≥ b
      · simp only [createSession, if_pos hab]; exact ih tid
      · cases hn : getTimerByName st n with
        | some t =>
          simp only [createSession, if_neg hab, hn]
          exact countP_active_append_closed st.sessions
            { id := fsid, timerId := t.id, start := a, end? := some b,
              createdAt := now } rfl tid (ih tid)
        | none =>
          simp only [createSession, if_neg hab, hn]
          exact countP_active_append_closed st.sessions
            { id := fsid, timerId := (createTimer st ftid n "#f5f5f4" now).2.id,
              start := a, end? := some b, createdAt := now } rfl tid (ih tid)
  · intro st n t sAt now ftid fsid hn hs
    cases ha : getActiveSession st t.id with
    | none => rw [ha] at hs; simp at hs
    | some act => simp only [startTimer, hn, startTimerGo, ha]

/-- Witness for `mutual_exclusion_I1`: the one-step store `stOneStart`
satisfies I1, and a second start of `"work"` on it fails. -/
theorem mutual_exclusion_I1_witness :
    stOneStart.sessions.countP
      (fun s => s.timerId == "T1" && s.end?.isNone) ≤ 1 ∧
    startTimer stOneStart "work" none 20 "T2" "S2" =
      (stOneStart, Except.error (TimerError.alreadyRunning "work")) := by
  constructor
  · exact mutual_exclusion_I1.1 stOneStart
      (Reachable.startStep { timers := [], sessions := [] } "work" none 10
        "T1" "S1" (by decide) (by decide) Reachable.init) "T1"
  · exact mutual_exclusion_I1.2 stOneStart "work"
      { id := "T1", name := "work", color := "#f5f5f4", createdAt := 10 }
      none 20 "T2" "S2" (by decide) (by decide)

/-- The store left behind by `stopTimer`: unchanged, or with exactly the row
of the found active session closed at the effective stop timestamp. -/
theorem stopTimer_state (st : Store) (n : String) (sAt : Option Nat)
    (now : Nat) :
    (stopTimer st n sAt now).1 = st ∨
    ∃ t act, getTimerByName st n = some t ∧
      getActiveSession st t.id = some act ∧
      ¬ (truthy sAt ∧ sAt.getD now ≤ act.start) ∧
      (stopTimer st n sAt now).1 =
        { st with sessions := st.sessions.map (fun s =>
            if s.id == act.id then { s with end? := some (sAt.getD now) }
            else s) } := by
  cases hn : getTimerByName st n with
  | none => left; simp [stopTimer, hn]
  | some t =>
    cases ha : getActiveSession st t.id with
    | none => left; simp [stopTimer, hn, ha]
    | some act =>
      by_cases hc : truthy sAt ∧ sAt.getD now ≤ act.start
      · left; simp [stopTimer, hn, ha, hc]
      · right
        exact ⟨t, act, rfl, ha, hc, by simp [stopTimer, hn, ha, hc]⟩

/-- Appending a session with a fresh id preserves distinctness of session
ids. -/
theorem nodup_ids_append (l : List TimerSession) (sess : TimerSession)
    (hnd : (l.map (fun s => s.id)).Nodup)
    (hfresh : ∀ s ∈ l, s.id ≠ sess.id) :
    ((l ++ [sess]).map (fun s => s.id)).Nodup := by
  rw [List.map_append, List.nodup_append]
  refine ⟨hnd, by simp, ?_⟩
  intro a ha hb
  rcases List.mem_map.mp ha with ⟨s, hs, rfl⟩
  have hb' : s.id = sess.id := by simpa using hb
  exact hfresh s hs hb'

/-- The session ids are untouched by the closing map of `stopTimer`. -/
theorem map_close_ids (l : List TimerSession) (aid : String) (ts : Nat) :
    (l.map (fun s => if s.id == aid then { s with end? := some ts } else s)).map
        (fun s => s.id) =
      l.map (fun s => s.id) := by
  rw [List.map_map]
  apply List.map_congr_left
  intro s _
  by_cases hid : s.id = aid <;> simp [hid]

/-- Appending a session that satisfies I2 preserves I2. -/
theorem I2_append (l : List TimerSession) (sess : TimerSession)
    (hI2 : ∀ s ∈ l, ∀ e : Nat, s.end? = some e → s.start < e)
    (hsess : ∀ e : Nat, sess.end? = some e → sess.start < e) :
    ∀ s ∈ l ++ [sess], ∀ e : Nat, s.end? = some e → s.start < e := by
  intro s hs e he
  rcases List.mem_append.mp hs with h | h
  · exact hI2 s h e he
  · have hss : s = sess := by simpa using h
    subst hss
    exact hsess e he

/-- Closing the active session at a timestamp strictly after its start
preserves I2, given distinct session ids. -/
theorem I2_stopMap (l : List TimerSession) (act : TimerSession) (ts : Nat)
    (hnd : (l.map (fun s => s.id)).Nodup) (hmem : act ∈ l)
    (hI2 : ∀ s ∈ l, ∀ e : Nat, s.end? = some e → s.start < e)
    (hts : act.start < ts) :
    ∀ s ∈ l.map (fun s =>
        if s.id == act.id then { s with end? := some ts } else s),
      ∀ e : Nat, s.end? = some e → s.start < e := by
  intro s' hs' e he
  rcases List.mem_map.mp hs' with ⟨s, hs, rfl⟩
  by_cases hid : (s.id == act.id) = true
  · have hid' : s.id = act.id := by simpa using hid
    have hseq : s = act :=
      List.inj_on_of_nodup_map hnd hs hmem hid'
    simp only [hid, if_true, ite_true] at he ⊢
    have heb : ts = e := by simpa using he
    subst hseq
    omega
  · simp [hid] at he ⊢
    exact hI2 s hs e he

/-- In every store reachable with well-behaved stops, session ids are
distinct and invariant I2 holds. -/
theorem reachableV_inv :
    ∀ st : Store, ReachableV st →
      (st.sessions.map (fun s => s.id)).Nodup ∧
      ∀ s ∈ st.sessions, ∀ e : Nat, s.end? = some e → s.start < e := by
  intro st h
  induction h with
  | init => simp
  | startStep st n sAt now ftid fsid hftid hfsid hr ih =>
    cases hn : getTimerByName st n with
    | some t =>
      simp only [startTimer, hn]
      rcases startTimerGo_state st n t false sAt now fsid with heq | ⟨hact, heq⟩
      · rw [heq]; exact ih
      · rw [heq]
        refine ⟨nodup_ids_append st.sessions _ ih.1 hfsid, ?_⟩
        exact I2_append st.sessions _ ih.2 (fun e he => nomatch he)
    | none =>
      simp only [startTimer, hn]
      rcases startTimerGo_state (createTimer st ftid n "#f5f5f4" now).1 n
          (createTimer st ftid n "#f5f5f4" now).2 true sAt now fsid with
        heq | ⟨hact, heq⟩
      · rw [heq]; exact ih
      · rw [heq]
        refine ⟨nodup_ids_append st.sessions _ ih.1 hfsid, ?_⟩
        exact I2_append st.sessions _ ih.2 (fun e he => nomatch he)
  | stopAtStep st n ts now hts hr ih =>
    rcases stopTimer_state st n (some ts) now with heq | ⟨t, act, hn, ha, hc, heq⟩
    · rw [heq]; exact ih
    · rw [heq]
      have hmem : act ∈ st.sessions := List.mem_of_find?_eq_some ha
      have hstart : act.start < ts := by
        by_contra hlt
        push_neg at hlt
        exact hc ⟨by simp [truthy, hts], hlt⟩
      refine ⟨?_, ?_⟩
      · rw [map_close_ids]; exact ih.1
      · exact I2_stopMap st.sessions act _ ih.1 hmem ih.2 hstart
  | stopNowStep st n now hclock hr ih =>
    rcases stopTimer_state st n none now with heq | ⟨t, act, hn, ha, hc, heq⟩
    · rw [heq]; exact ih
    · rw [heq]
      have hmem : act ∈ st.sessions := List.mem_of_find?_eq_some ha
      have hstart : act.start < now := hclock t act hn ha
      refine ⟨?_, ?_⟩
      · rw [map_close_ids]; exact ih.1
      · exact I2_stopMap st.sessions act _ ih.1 hmem ih.2 hstart
  | createStep st n a b now ftid fsid hftid hfsid hr ih =>
    by_cases hab : a ≥ b
    · simp only [createSession, if_pos hab]; exact ih
    · cases hn : getTimerByName st n with
      | some t =>
        simp only [createSession, if_neg hab, hn]
        refine ⟨nodup_ids_append st.sessions _ ih.1 hfsid, ?_⟩
        refine I2_append st.sessions _ ih.2 ?_
        intro e he
        have heb : b = e := by simpa using he
        simp only []
        omega
      | none =>
        simp only [createSession, if_neg hab, hn]
        refine ⟨nodup_ids_append st.sessions _ ih.1 hfsid, ?_⟩
        refine I2_append st.sessions _ ih.2 ?_
        intro e he
        have heb : b = e := by simpa using he
        simp only []
        omega

/-- C2 counterexample: the state reached by starting `"work"` retroactively
at 100 (wall clock 50) and then stopping it with the default clock at 60 is
reachable, yet stores a session whose end 60 is not after its start 100. -/
theorem invariant_I2_counterexample :
    Reachable stFutureStop ∧
    sessLate ∈ stFutureStop.sessions ∧
    sessLate.end? = some 60 ∧ 60 ≤ sessLate.start := by
  refine ⟨?_, by decide, rfl, by decide⟩
  exact Reachable.stopStep _ "work" none 60
    (Reachable.startStep { timers := [], sessions := [] } "work" (some 100) 50
      "T1" "S1" (by decide) (by decide) Reachable.init)

/-- C2 amended: invariant I2 holds in every store reachable by engine
mutations whose stop requests are well-behaved — each `stopTimer` call either
passes an explicit nonzero stop timestamp, or relies on a current time
strictly greater than the open session's start.  (Without that proviso a
stop can store `end ≤ start`: an explicit stop at 0 skips the validation,
and a default-clock stop of a session started in the future is never
validated.) -/
theorem invariant_I2_validated_stops :
    ∀ st : Store, ReachableV st →
      ∀ s ∈ st.sessions, ∀ e : Nat, s.end? = some e → s.start < e :=
  fun st h => (reachableV_inv st h).2

/-- Witness for `invariant_I2_validated_stops` on the concrete two-step
trace `stGoodStop`. -/
theorem invariant_I2_validated_stops_witness :
    sessGood.start < 9 := by
  have hr : ReachableV stGoodStop :=
    ReachableV.stopAtStep _ "work" 9 9 (by decide)
      (ReachableV.startStep { timers := [], sessions := [] } "work" (some 5) 5
        "T1" "S1" (by decide) (by decide) ReachableV.init)
  exact invariant_I2_validated_stops stGoodStop hr sessGood (by decide) 9 rfl

/-- C9: a successful `stopTimer` changes nothing but the `end` field of the
single open session of the named timer: the timer table is untouched, every
session with a different id — in particular every already-closed session —
is carried over unchanged in both directions, and the returned session is
the open session with only `end` set. -/
theorem stopTimer_frame (st st' : Store) (n : String) (stopAt : Option Nat)
    (now : Nat) (sess : TimerSession)
    (hnodup : (st.sessions.map (fun s => s.id)).Nodup)
    (h : stopTimer st n stopAt now = (st', Except.ok sess)) :
    st'.timers = st.timers ∧
    ∃ t act, getTimerByName st n = some t ∧
      getActiveSession st t.id = some act ∧ act.end? = none ∧
      sess = { act with end? := some (stopAt.getD now) } ∧
      sess ∈ st'.sessions ∧
      (∀ s ∈ st.sessions, s.id ≠ act.id → s ∈ st'.sessions) ∧
      (∀ s' ∈ st'.sessions, s'.id ≠ act.id → s' ∈ st.sessions) ∧
      (∀ s ∈ st.sessions, s.end?.isSome → s ∈ st'.sessions) := by
  cases hn : getTimerByName st n with
  | none => simp [stopTimer, hn] at h
  | some t =>
    cases ha : getActiveSession st t.id with
    | none => simp [stopTimer, hn, ha] at h
    | some act =>
      by_cases hcond : truthy stopAt ∧ stopAt.getD now ≤ act.start
      · simp [stopTimer, hn, ha, hcond] at h
      · simp only [stopTimer, hn, ha] at h
        rw [if_neg hcond] at h
        have h1 : ({ st with sessions := st.sessions.map (fun s =>
            if s.id == act.id then { s with end? := some (stopAt.getD now) }
            else s) } : Store) = st' := congrArg Prod.fst h
        have h2 := congrArg Prod.snd h
        have hsess : sess = { act with end? := some (stopAt.getD now) } :=
          (Except.ok.inj h2).symm
        subst h1
        have hopen : act.end? = none := by
          have hp := List.find?_some ha
          have := (Bool.and_eq_true _ _).mp hp
          exact Option.isNone_iff_eq_none.mp this.2
        have hmem : act ∈ st.sessions := List.mem_of_find?_eq_some ha
        have hkeep : ∀ s ∈ st.sessions, s.id ≠ act.id →
            s ∈ (st.sessions.map (fun s =>
              if s.id == act.id then { s with end? := some (stopAt.getD now) }
              else s)) := by
          intro s hs hid
          have hfix : (if s.id == act.id
              then { s with end? := some (stopAt.getD now) } else s) = s := by
            rw [if_neg (by simp [hid])]
          rw [← hfix]
          exact List.mem_map_of_mem _ hs
        refine ⟨rfl, t, act, rfl, ha, hopen, hsess, ?_, hkeep, ?_, ?_⟩
        · rw [hsess]
          have hval : ({ act with end? := some (stopAt.getD now) }) =
              (fun s => if s.id == act.id
                then { s with end? := some (stopAt.getD now) } else s) act := by
            simp
          rw [hval]
          exact List.mem_map_of_mem _ hmem
        · intro s' hs' hid
          rcases List.mem_map.mp hs' with ⟨s, hs, rfl⟩
          by_cases hcase : s.id = act.id
          · exfalso
            apply hid
            simp [hcase]
          · have hfix : (if s.id == act.id
                then { s with end? := some (stopAt.getD now) } else s) = s := by
              rw [if_neg (by simp [hcase])]
            rw [hfix]
            exact hs
        · intro s hs hsome
          refine hkeep s hs ?_
          intro hsid
          have hseq : s = act := List.inj_on_of_nodup_map hnodup hs hmem hsid
          rw [hseq, hopen] at hsome
          simp at hsome

/-- Witness for `stopTimer_frame` on the concrete stop of `stRunning` at 9:
the timer table is unchanged. -/
theorem stopTimer_frame_witness :
    stRunningStopped.timers = stRunning.timers :=
  (stopTimer_frame stRunning stRunningStopped "t" (some 9) 0 sessStopped
    (by decide) (by decide)).1

/-- Adding a session to a group changes grouped membership by exactly that
session. -/
theorem mem_addToGroup (g : List (Timer × List TimerSession)) (t : Timer)
    (s x : TimerSession) :
    groupMem (addToGroup g t s) x ↔ groupMem g x ∨ x = s := by
  induction g with
  | nil =>
    simp [addToGroup, groupMem]
  | cons g0 gs ih =>
    by_cases hid : (g0.1.id == t.id) = true
    · rw [show addToGroup (g0 :: gs) t s = (g0.1, g0.2 ++ [s]) :: gs from by
        simp [addToGroup, hid]]
      constructor
      · rintro ⟨p, hp, hx⟩
        rcases List.mem_cons.mp hp with rfl | hmem
        · rcases List.mem_append.mp hx with hx2 | hx2
          · exact Or.inl ⟨g0, List.mem_cons_self _ _, hx2⟩
          · exact Or.inr (by simpa using hx2)
        · exact Or.inl ⟨p, List.mem_cons_of_mem _ hmem, hx⟩
      · rintro (⟨p, hp, hx⟩ | hxs)
        · rcases List.mem_cons.mp hp with heq | hmem
          · exact ⟨(g0.1, g0.2 ++ [s]), List.mem_cons_self _ _,
              List.mem_append_left _ (heq ▸ hx)⟩
          · exact ⟨p, List.mem_cons_of_mem _ hmem, hx⟩
        · refine ⟨(g0.1, g0.2 ++ [s]), List.mem_cons_self _ _, ?_⟩
          rw [hxs]
          exact List.mem_append_right _ (by simp)
    · rw [show addToGroup (g0 :: gs) t s = g0 :: addToGroup gs t s from by
        simp [addToGroup, hid]]
      constructor
      · rintro ⟨p, hp, hx⟩
        rcases List.mem_cons.mp hp with rfl | hmem
        · exact Or.inl ⟨p, List.mem_cons_self _ _, hx⟩
        · rcases ih.mp ⟨p, hmem, hx⟩ with ⟨q, hq, hxq⟩ | hxs
          · exact Or.inl ⟨q, List.mem_cons_of_mem _ hq, hxq⟩
          · exact Or.inr hxs
      · rintro (⟨p, hp, hx⟩ | hxs)
        · rcases List.mem_cons.mp hp with heq | hmem
          · exact ⟨g0, List.mem_cons_self _ _, heq ▸ hx⟩
          · rcases ih.mpr (Or.inl ⟨p, hmem, hx⟩) with ⟨q, hq, hxq⟩
            exact ⟨q, List.mem_cons_of_mem _ hq, hxq⟩
        · rcases ih.mpr (Or.inr hxs) with ⟨q, hq, hxq⟩
          exact ⟨q, List.mem_cons_of_mem _ hq, hxq⟩

/-- A session is in some group of the grouping loop exactly when it was in
one of the starting groups or is an input session whose timer row exists. -/
theorem groupMem_groupLoop (st : Store) :
    ∀ (l : List TimerSession) (g : List (Timer × List TimerSession))
      (x : TimerSession),
      groupMem (groupLoop st l g) x ↔
        groupMem g x ∨ (x ∈ l ∧ (getTimerById st x.timerId).isSome) := by
  intro l
  induction l with
  | nil =>
    intro g x
    simp [groupLoop]
  | cons s rest ih =>
    intro g x
    cases ht : getTimerById st s.timerId with
    | some t =>
      rw [show groupLoop st (s :: rest) g = groupLoop st rest (addToGroup g t s)
        from by simp [groupLoop, ht]]
      rw [ih, mem_addToGroup]
      constructor
      · rintro ((hg | hxs) | ⟨hrest, hsome⟩)
        · exact Or.inl hg
        · refine Or.inr ⟨?_, ?_⟩
          · rw [hxs]; exact List.mem_cons_self _ _
          · rw [hxs, ht]; rfl
        · exact Or.inr ⟨List.mem_cons_of_mem _ hrest, hsome⟩
      · rintro (hg | ⟨hmem, hsome⟩)
        · exact Or.inl (Or.inl hg)
        · rcases List.mem_cons.mp hmem with heq | hrest
          · exact Or.inl (Or.inr heq)
          · exact Or.inr ⟨hrest, hsome⟩
    | none =>
      rw [show groupLoop st (s :: rest) g = groupLoop st rest g from by
        simp [groupLoop, ht]]
      rw [ih]
      constructor
      · rintro (hg | ⟨hrest, hsome⟩)
        · exact Or.inl hg
        · exact Or.inr ⟨List.mem_cons_of_mem _ hrest, hsome⟩
      · rintro (hg | ⟨hmem, hsome⟩)
        · exact Or.inl hg
        · rcases List.mem_cons.mp hmem with heq | hrest
          · rw [heq, ht] at hsome
            simp at hsome
          · exact Or.inr ⟨hrest, hsome⟩

/-- Sorting by descending start does not change membership. -/
theorem mem_sortByStartDesc (l : List TimerSession) (x : TimerSession) :
    x ∈ sortByStartDesc l ↔ x ∈ l :=
  (List.perm_insertionSort startGe l).mem_iff

/-- C7: for `rangeStart ≤ rangeEnd` and a store with intact foreign keys,
the sessions appearing in the `includeActive` range query are exactly those
with `start` in `[rangeStart, rangeEnd]`, or started before `rangeStart` and
still open — in particular a straddling open session is always returned. -/
theorem range_query_includeActive_spec :
    ∀ (st : Store) (a b : Nat), a ≤ b →
      (∀ s ∈ st.sessions, (getTimerById st s.timerId).isSome) →
      ∀ x : TimerSession,
        groupMem (getAllSessionsByTimer st a b) x ↔
          (x ∈ st.sessions ∧
            ((a ≤ x.start ∧ x.start ≤ b) ∨ (x.start < a ∧ x.end? = none))) := by
  intro st a b hab hfk x
  rw [getAllSessionsByTimer, groupMem_groupLoop]
  rw [mem_sortByStartDesc, List.mem_filter]
  constructor
  · rintro (hg | ⟨⟨hx, hp⟩, _⟩)
    · exact absurd hg (by simp [groupMem])
    · refine ⟨hx, ?_⟩
      have hp2 : (a ≤ x.start ∧ x.start ≤ b) ∨ (x.start < b ∧ x.end? = none) := by
        simpa [inRangeOrActive] using hp
      rcases hp2 with h1 | ⟨h2, h3⟩
      · exact Or.inl h1
      · by_cases hxa : x.start < a
        · exact Or.inr ⟨hxa, h3⟩
        · push_neg at hxa
          exact Or.inl ⟨hxa, le_of_lt h2⟩
  · rintro ⟨hx, hp⟩
    refine Or.inr ⟨⟨hx, ?_⟩, hfk x hx⟩
    have hp2 : (a ≤ x.start ∧ x.start ≤ b) ∨ (x.start < b ∧ x.end? = none) := by
      rcases hp with h1 | ⟨h2, h3⟩
      · exact Or.inl h1
      · exact Or.inr ⟨lt_of_lt_of_le h2 hab, h3⟩
    simpa [inRangeOrActive] using hp2

/-- Witness for `range_query_includeActive_spec`: the open session of
`stRunning`, started at 5 before the window `[7, 9]`, is returned. -/
theorem range_query_includeActive_spec_witness :
    groupMem (getAllSessionsByTimer stRunning 7 9) sessRunning :=
  (range_query_includeActive_spec stRunning 7 9 (by decide) (by decide)
    sessRunning).mpr (by decide)

/-- Every entry of `addToGroup g t s` is an old group, an old group with `s`
appended, or the new singleton group of `s`. -/
theorem addToGroup_mem_cases (g : List (Timer × List TimerSession)) (t : Timer)
    (s : TimerSession) :
    ∀ p ∈ addToGroup g t s,
      p ∈ g ∨ (∃ ss, (p.1, ss) ∈ g ∧ p.2 = ss ++ [s]) ∨ p = (t, [s]) := by
  induction g with
  | nil =>
    intro p hp
    simp only [addToGroup] at hp
    right; right
    simpa using hp
  | cons g0 gs ih =>
    intro p hp
    by_cases hid : (g0.1.id == t.id) = true
    · rw [show addToGroup (g0 :: gs) t s = (g0.1, g0.2 ++ [s]) :: gs from by
        simp [addToGroup, hid]] at hp
      rcases List.mem_cons.mp hp with rfl | hmem
      · right; left
        exact ⟨g0.2, List.mem_cons_self _ _, rfl⟩
      · left
        exact List.mem_cons_of_mem _ hmem
    · rw [show addToGroup (g0 :: gs) t s = g0 :: addToGroup gs t s from by
        simp [addToGroup, hid]] at hp
      rcases List.mem_cons.mp hp with rfl | hmem
      · left
        exact List.mem_cons_self _ _
      · rcases ih p hmem with h | ⟨ss, hss, hp2⟩ | h
        · left; exact List.mem_cons_of_mem _ h
        · right; left; exact ⟨ss, List.mem_cons_of_mem _ hss, hp2⟩
        · right; right; exact h

/-- If the input sessions are in descending start order, every group built by
the grouping loop is in descending start order. -/
theorem groupLoop_pairwise (st : Store) :
    ∀ (l : List TimerSession) (g : List (Timer × List TimerSession)),
      List.Pairwise startGe l →
      (∀ p ∈ g, List.Pairwise startGe p.2) →
      (∀ p ∈ g, ∀ x ∈ p.2, ∀ y ∈ l, startGe x y) →
      ∀ p ∈ groupLoop st l g, List.Pairwise startGe p.2 := by
  intro l
  induction l with
  | nil =>
    intro g _ hg _ p hp
    exact hg p hp
  | cons s rest ih =>
    intro g hl hg hcross p hp
    have hl2 : List.Pairwise startGe rest := (List.pairwise_cons.mp hl).2
    have hsrest : ∀ y ∈ rest, startGe s y := (List.pairwise_cons.mp hl).1
    cases ht : getTimerById st s.timerId with
    | none =>
      rw [show groupLoop st (s :: rest) g = groupLoop st rest g from by
        simp [groupLoop, ht]] at hp
      exact ih g hl2 hg
        (fun q hq x hx y hy => hcross q hq x hx y (List.mem_cons_of_mem _ hy))
        p hp
    | some t =>
      rw [show groupLoop st (s :: rest) g = groupLoop st rest (addToGroup g t s)
        from by simp [groupLoop, ht]] at hp
      refine ih (addToGroup g t s) hl2 ?_ ?_ p hp
      · intro q hq
        rcases addToGroup_mem_cases g t s q hq with h | ⟨ss, hss, hq2⟩ | h
        · exact hg q h
        · rw [hq2, List.pairwise_append]
          refine ⟨hg (q.1, ss) hss, by simp, ?_⟩
          intro a ha b hb
          have hb2 : b = s := by simpa using hb
          rw [hb2]
          exact hcross (q.1, ss) hss a ha s (List.mem_cons_self _ _)
        · rw [h]
          simp
      · intro q hq x hx y hy
        rcases addToGroup_mem_cases g t s q hq with h | ⟨ss, hss, hq2⟩ | h
        · exact hcross q h x hx y (List.mem_cons_of_mem _ hy)
        · rw [hq2] at hx
          rcases List.mem_append.mp hx with hx2 | hx2
          · exact hcross (q.1, ss) hss x hx2 y (List.mem_cons_of_mem _ hy)
          · have hx3 : x = s := by simpa using hx2
            rw [hx3]
            exact hsrest y hy
        · rw [h] at hx
          have hx3 : x = s := by simpa using hx
          rw [hx3]
          exact hsrest y hy

/-- C10: within each timer's group of the `includeActive` range query,
sessions appear in non-increasing (descending) `start` order. -/
theorem range_query_groups_sorted :
    ∀ (st : Store) (a b : Nat), ∀ p ∈ getAllSessionsByTimer st a b,
      List.Pairwise startGe p.2 := by
  intro st a b p hp
  rw [getAllSessionsByTimer] at hp
  refine groupLoop_pairwise st _ [] ?_ (by simp) (by simp) p hp
  exact List.sorted_insertionSort startGe _

/-- Witness for `range_query_groups_sorted` on the concrete two-session
group of `stTwoDone`. -/
theorem range_query_groups_sorted_witness :
    List.Pairwise startGe groupTwoDone.2 :=
  range_query_groups_sorted stTwoDone 0 10 groupTwoDone (by decide)

end Stint
